import Mathlib

/-!
Shallow embedding of `autofill_description.py`, the pull-request description
generator pipeline. Strings are modelled as `List Char`; the host and the
generation backend are modelled as an oracle (`World`) supplying the responses
each HTTP request would return. Python functions are translated one-to-one;
`main` is translated as `main_run`, which records the observable effects
(process outcome, number of generation calls, number of comment posts, and the
posted comment body).
-/

/-- Does `hay` start with `needle`?  Mirrors the anchored comparison that
Python substring search performs at each candidate position. -/
def firstMatches : List Char → List Char → Bool
  | [], _ => true
  | _ :: _, [] => false
  | a :: as, b :: bs => a == b && firstMatches as bs

/-- Python `needle in hay` (substring containment). -/
def containsSub (needle : List Char) : List Char → Bool
  | [] => firstMatches needle []
  | c :: rest => firstMatches needle (c :: rest) || containsSub needle rest

/-- Index of the first occurrence of `needle` in `hay`, if any: the core of
Python `str.find`. -/
def find_sub_idx (needle : List Char) : List Char → Option Nat
  | [] => if firstMatches needle [] then some 0 else none
  | c :: rest =>
    if firstMatches needle (c :: rest) then some 0
    else
      match find_sub_idx needle rest with
      | none => none
      | some i => some (i + 1)

/-- Python `hay.find(needle, start)`: the least absolute index `≥ start` at
which `needle` occurs in `hay` (`none` models the return value `-1`). -/
def find_from (hay needle : List Char) (start : Nat) : Option Nat :=
  match find_sub_idx needle (hay.drop start) with
  | none => none
  | some i => some (start + i)

/-- Specification-side predicate: `needle` occurs in `hay` at index `i`. -/
def occursAt (needle hay : List Char) (i : Nat) : Prop :=
  ∃ pre post, pre.length = i ∧ hay = pre ++ needle ++ post

/-- The section marker scanned for by `get_current_pr_description`. -/
def description_marker : List Char := "# Description".data

/-- The single character searched for as the closing marker. -/
def hash_char : List Char := "#".data

/-- One pull-request comment, as consumed by the pipeline (its `body` field). -/
structure Comment where
  body : List Char
deriving DecidableEq

/-- One entry of the pull-request `files` listing: a filename and an optional
unified-diff patch (the `patch` key may be absent, e.g. for removed binary
files). -/
structure FileChange where
  filename : List Char
  patch : Option (List Char)
deriving DecidableEq

/-- The pull-request metadata fields the pipeline reads: `title`, `body`
(which the JSON payload may carry as `null`, hence `Option`), and
`user.login`. -/
structure PullRequestData where
  title : List Char
  body : Option (List Char)
  authorLogin : List Char
deriving DecidableEq

/-- Outcome of one HTTP request: the decoded payload on a success status, or
the non-success numeric status code. -/
inductive Fetch (α : Type)
  | ok : α → Fetch α
  | fail : Nat → Fetch α
deriving DecidableEq

/-- Return value of `get_pull_request_files`: the Python function returns the
integer `1` on a failed page request (modelled as `fail` with the status it
printed) and the accumulated file list otherwise. -/
inductive FilesResult
  | fail : Nat → FilesResult
  | ok : List FileChange → FilesResult
deriving DecidableEq

/-- `get_current_pr_description`: select the `"# Description"` section of the
body.  If the marker is absent, return the body; else look for the next hash character
strictly after the marker start; if none, return the body; else return the
slice between the two indices. -/
def get_current_pr_description (entire_description : List Char) : List Char :=
  match find_from entire_description description_marker 0 with
  | none => entire_description
  | some description_start_index =>
    match find_from entire_description hash_char (description_start_index + 1) with
    | none => entire_description
    | some description_end_index =>
      (entire_description.drop description_start_index).take
        (description_end_index - description_start_index)

/-- The body-field access performed before `get_current_pr_description` can
run: Python reads `pull_request_data["body"]` and immediately calls `.find`
on it, which raises `AttributeError` when the JSON body was `null`. -/
def get_current_pr_description_of_pr (pull_request_data : PullRequestData) :
    Except (List Char) (List Char) :=
  match pull_request_data.body with
  | none => Except.error "AttributeError: NoneType has no attribute find".data
  | some entire_description => Except.ok (get_current_pr_description entire_description)

/-- `check_pull_request_author_is_allowed_to_trigger_action`: when the
allowlist is non-empty and the author is not in it, the Python function prints
a notice and returns `0` (modelled `some 0`); in every other case it falls off
the end and returns `None` (modelled `none`).  `main` ignores this value. -/
def check_pull_request_author_is_allowed_to_trigger_action
    (pull_request_data : PullRequestData) (allowed_users : List (List Char)) :
    Option Nat :=
  if allowed_users.isEmpty then none
  else if allowed_users.contains pull_request_data.authorLogin then none
  else some 0

/-- The comment-scanning loop of
`check_if_description_has_already_been_autogenerated` (on a successful
comments fetch): `true` models the Python return value `1` emitted as soon as
some comment body contains the sentinel title; falling off the loop returns
`None`, modelled `false`. -/
def check_if_description_has_already_been_autogenerated
    (autogenerated_title : List Char) : List Comment → Bool
  | [] => false
  | comment :: rest =>
    if containsSub autogenerated_title comment.body then true
    else check_if_description_has_already_been_autogenerated autogenerated_title rest

/-- The newline join of the message list, as `get_commit_messages` performs
on the fetched commit messages. -/
def join_messages : List (List Char) → List Char
  | [] => []
  | [m] => m
  | m :: rest => m ++ "\n".data ++ join_messages rest

/-- The page loop of `get_pull_request_files` over the remaining page numbers:
carries the accumulated files and the number of HTTP page requests issued so
far.  A failed page request aborts with the status (Python returns `1`); an
empty page breaks out of the loop; otherwise the chunk is appended and the
next page is requested. -/
def files_pages_loop (pages : Nat → Fetch (List FileChange)) :
    List Nat → List FileChange → Nat → FilesResult × Nat
  | [], pull_request_files, requests => (FilesResult.ok pull_request_files, requests)
  | page_num :: rest, pull_request_files, requests =>
    match pages page_num with
    | Fetch.fail status => (FilesResult.fail status, requests + 1)
    | Fetch.ok pull_files_chunk =>
      if pull_files_chunk.length = 0 then (FilesResult.ok pull_request_files, requests + 1)
      else files_pages_loop pages rest (pull_request_files ++ pull_files_chunk) (requests + 1)

/-- The fixed page size requested in the `files` URL query (`per_page=30`). -/
def files_per_page : Nat := 30

/-- `get_pull_request_files`: requests pages `1..10` (`for page_num in
range(1, 11)`), each of `files_per_page` entries, instrumented with the count
of page requests actually issued. -/
def get_pull_request_files (pages : Nat → Fetch (List FileChange)) :
    FilesResult × Nat :=
  files_pages_loop pages (List.range' 1 10) [] 0

/-- The fixed leading text of the prompt f-string in `construct_prompt`, with
the title, current description and commit messages interpolated. -/
def prompt_header (pull_request_title current_description commit_messages : List Char) :
    List Char :=
  "\nPlease rewrite the current pull request description focusing on the motivation behind the changes contained in the pull request and why they improve the project. Go straight to the point.\nThe title of the pull request is: ".data
    ++ pull_request_title
    ++ " \n\nThe current description is: \n ".data
    ++ current_description
    ++ " \n\nThis pull request contains the following commits (use them to create a better description): \n ".data
    ++ commit_messages
    ++ "\n\nAnd the following changes took place: \n\n".data

/-- The per-file loop of `construct_prompt`: entries without a `patch` key are
skipped (`continue`); every other entry appends one
block of the form: Changes in file FILENAME, colon, newline, PATCH, newline. -/
def file_changes_text : List FileChange → List Char
  | [] => []
  | pull_request_file :: rest =>
    match pull_request_file.patch with
    | none => file_changes_text rest
    | some patch =>
      ("Changes in file ".data ++ pull_request_file.filename ++ ": \n".data
          ++ patch ++ "\n".data)
        ++ file_changes_text rest

/-- `construct_prompt`: the header f-string followed by the accumulated
per-file blocks. -/
def construct_prompt
    (pull_request_title current_description commit_messages : List Char)
    (pull_request_files : List FileChange) : List Char :=
  prompt_header pull_request_title current_description commit_messages
    ++ file_changes_text pull_request_files

/-- `trim_prompt`: cap the prompt at
`max_allowed_tokens * characters_per_token` characters, keeping the head. -/
def trim_prompt (prompt : List Char) : List Char :=
  let max_allowed_tokens := 2048
  let characters_per_token := 4
  let max_allowed_characters := max_allowed_tokens * characters_per_token
  if prompt.length > max_allowed_characters then prompt.take max_allowed_characters
  else prompt

/-- `add_title_to_description`: the Python f-string
joining the title and the description with two newline characters. -/
def add_title_to_description (autogenerated_title description : List Char) : List Char :=
  autogenerated_title ++ "\n\n".data ++ description

/-- The sentinel title constant defined in `main`. -/
def autogenerated_title : List Char := "# Auto-generated description:".data

/-- The host and backend responses a single run observes: the pull-request
fetch, the comments fetch, the commits fetch (as the extracted message list),
the per-page files fetches, the generation backend response to a given prompt,
and the status code of the comment POST. -/
structure World where
  prResp : Fetch PullRequestData
  commentsResp : Fetch (List Comment)
  commitsResp : Fetch (List (List Char))
  filePages : Nat → Fetch (List FileChange)
  genResp : List Char → Fetch (List Char)
  postStatus : Nat

/-- How the process ends: `exited c` is a normal return from `main` (Python
`sys.exit(main())` with `main` returning `None` exits with code 0); `raised`
is an uncaught exception, which exits non-zero. -/
inductive RunOutcome
  | exited : Nat → RunOutcome
  | raised : RunOutcome
deriving DecidableEq

/-- Observable effects of one run of `main`. -/
structure RunResult where
  outcome : RunOutcome
  genCalls : Nat
  publishCalls : Nat
  postedBody : Option (List Char)
deriving DecidableEq

/-- Translation of `main` (after argument parsing).  Key behaviours of the
source, preserved here: the author check and the idempotency check are called
but their return values are discarded, so neither stops the run; a failed
pull-request fetch yields `None` and the run raises at the first subscript of
it (`["user"]` or `["title"]`) before any generation; a `null` body raises
inside `get_current_pr_description`; a failed commits fetch returns the
integer `1`, which interpolates into the prompt as the text `"1"` and the run
continues; a failed files fetch returns `1` and the run raises when
`construct_prompt` iterates over it; a generation failure is an exception
raised by the backend library after the call was made; the comment POST is
issued unconditionally and its failure value `1` is discarded, so `main`
returns `None` (exit code 0) either way. -/
def main_run (w : World) (allowed_users : List (List Char)) : RunResult :=
  match w.prResp with
  | Fetch.fail _ =>
    -- pull_request_data is None: the run raises at pull_request_data["user"]
    -- (allowlist configured) or at pull_request_data["title"], in both cases
    -- before any generation call and before any comment POST.
    ⟨RunOutcome.raised, 0, 0, none⟩
  | Fetch.ok pull_request_data =>
    let _author_check :=
      check_pull_request_author_is_allowed_to_trigger_action pull_request_data allowed_users
    -- the comments fetch and scan; on a failed fetch the function returns 1,
    -- which main discards exactly as it discards the scan result.
    let _already :=
      match w.commentsResp with
      | Fetch.fail _ => true
      | Fetch.ok comments =>
        check_if_description_has_already_been_autogenerated autogenerated_title comments
    match get_current_pr_description_of_pr pull_request_data with
    | Except.error _ => ⟨RunOutcome.raised, 0, 0, none⟩
    | Except.ok current_description =>
      let commit_messages : List Char :=
        match w.commitsResp with
        | Fetch.fail _ => "1".data
        | Fetch.ok msgs => join_messages msgs
      match (get_pull_request_files w.filePages).1 with
      | FilesResult.fail _ =>
        -- the integer 1 reaches construct_prompt, whose for-loop raises
        -- TypeError before any generation call.
        ⟨RunOutcome.raised, 0, 0, none⟩
      | FilesResult.ok pull_request_files =>
        let prompt :=
          trim_prompt (construct_prompt pull_request_data.title current_description
            commit_messages pull_request_files)
        match w.genResp prompt with
        | Fetch.fail _ => ⟨RunOutcome.raised, 1, 0, none⟩
        | Fetch.ok generated =>
          let generated_pr_description :=
            add_title_to_description autogenerated_title generated
          -- write_description_as_comment posts, compares the status against
          -- 201, and its return value (1 on failure) is discarded by main.
          ⟨RunOutcome.exited 0, 1, 1, some generated_pr_description⟩

/-- A pull-request payload with all fields present; author login `bob`. -/
def prOk : PullRequestData :=
  ⟨"Enable X".data, some "".data, "bob".data⟩

/-- A comment whose body contains the sentinel title. -/
def sentinelComment : Comment :=
  ⟨"# Auto-generated description:\n\nold text".data⟩

/-- A sample file-change entry carrying a patch. -/
def sampleFile : FileChange := ⟨"a.yml".data, some "+line".data⟩

/-- A full files page of 30 entries. -/
def fullChunk : List FileChange := List.replicate 30 sampleFile

/-- Host pages: two full pages, then empty pages. -/
def pagesTwoFull : Nat → Fetch (List FileChange) :=
  fun n => if n ≤ 2 then Fetch.ok fullChunk else Fetch.ok []

/-- Host pages: every page full. -/
def pagesAllFull : Nat → Fetch (List FileChange) :=
  fun _ => Fetch.ok fullChunk

/-- A run in which a fetched comment already contains the sentinel title and
every external call succeeds. -/
def worldWithSentinel : World :=
  { prResp := Fetch.ok prOk
  , commentsResp := Fetch.ok [sentinelComment]
  , commitsResp := Fetch.ok ["add X".data]
  , filePages := fun _ => Fetch.ok []
  , genResp := fun _ => Fetch.ok "generated text".data
  , postStatus := 201 }

/-- A run in which everything succeeds except that the comment POST returns
status 500. -/
def worldPostFails : World :=
  { prResp := Fetch.ok prOk
  , commentsResp := Fetch.ok []
  , commitsResp := Fetch.ok ["add X".data]
  , filePages := fun _ => Fetch.ok []
  , genResp := fun _ => Fetch.ok "generated text".data
  , postStatus := 500 }

/-- A run in which everything succeeds except that the commits fetch returns
status 404. -/
def worldCommitsFail : World :=
  { prResp := Fetch.ok prOk
  , commentsResp := Fetch.ok []
  , commitsResp := Fetch.fail 404
  , filePages := fun _ => Fetch.ok []
  , genResp := fun _ => Fetch.ok "generated text".data
  , postStatus := 201 }

/-- A fully successful run with no prior comments and an unconfigured
allowlist. -/
def worldAllOk : World :=
  { prResp := Fetch.ok prOk
  , commentsResp := Fetch.ok []
  , commitsResp := Fetch.ok ["add X".data]
  , filePages := fun _ => Fetch.ok []
  , genResp := fun _ => Fetch.ok "generated text".data
  , postStatus := 201 }

/-- An allowlist that does not contain `bob`, the author of `prOk`. -/
def allowedOnlyAlice : List (List Char) := ["alice".data]

/-- A body whose `"# Description"` marker is preceded by text and followed by
no further hash character. -/
def bodyNoClosing : List Char := "x# Description y".data

/-- The worked example body from the specification: marker at index 6,
closing hash at index 30. -/
def bodyWorked : List Char := "intro # Description body text # Footer".data

theorem firstMatches_iff (n h : List Char) :
    firstMatches n h = true ↔ ∃ t, h = n ++ t := by
  induction n generalizing h with
  | nil => simp [firstMatches]
  | cons a as ih =>
    cases h with
    | nil => simp [firstMatches]
    | cons b bs =>
      simp only [firstMatches, Bool.and_eq_true, beq_iff_eq, ih, List.cons_append,
        List.cons.injEq]
      constructor
      · rintro ⟨hab, t, ht⟩
        exact ⟨t, hab.symm, ht⟩
      · rintro ⟨t, hab, ht⟩
        exact ⟨hab.symm, t, ht⟩

theorem occursAt_iff (n h : List Char) (i : Nat) :
    occursAt n h i ↔ i ≤ h.length ∧ firstMatches n (h.drop i) = true := by
  constructor
  · rintro ⟨pre, post, hlen, rfl⟩
    subst hlen
    refine ⟨by simp, ?_⟩
    rw [List.append_assoc, List.drop_left]
    exact (firstMatches_iff _ _).mpr ⟨post, rfl⟩
  · rintro ⟨hle, hm⟩
    obtain ⟨t, ht⟩ := (firstMatches_iff _ _).mp hm
    refine ⟨h.take i, t, ?_, ?_⟩
    · simp [List.length_take]
      omega
    · conv_lhs => rw [← List.take_append_drop i h]
      rw [ht, List.append_assoc]

theorem occursAt_add_length_le (n h : List Char) (i : Nat) (hocc : occursAt n h i) :
    i + n.length ≤ h.length := by
  obtain ⟨pre, post, hlen, rfl⟩ := hocc
  simp [List.length_append, ← hlen]

theorem occursAt_drop (n h : List Char) (d k : Nat) (hn : n ≠ []) :
    occursAt n (h.drop d) k ↔ occursAt n h (d + k) := by
  rw [occursAt_iff, occursAt_iff]
  constructor
  · rintro ⟨hk, hm⟩
    have hd : d ≤ h.length := by
      by_contra hgt
      push_neg at hgt
      rw [List.drop_eq_nil_of_le (le_of_lt hgt)] at hk hm
      simp at hk
      subst hk
      obtain ⟨t, ht⟩ := (firstMatches_iff _ _).mp hm
      rcases List.append_eq_nil.mp ht.symm with ⟨hn0, -⟩
      exact hn hn0
    have hk' : k ≤ h.length - d := by simpa [List.length_drop] using hk
    refine ⟨by omega, ?_⟩
    rw [List.drop_drop] at hm
    exact hm
  · rintro ⟨hdk, hm⟩
    refine ⟨by simp [List.length_drop]; omega, ?_⟩
    rw [List.drop_drop]
    exact hm

theorem find_sub_idx_none (n : List Char) : ∀ h : List Char,
    (∀ j, ¬ occursAt n h j) → find_sub_idx n h = none := by
  intro h
  induction h with
  | nil =>
    intro hnone
    have hfm : firstMatches n [] = false := by
      cases hb : firstMatches n [] with
      | false => rfl
      | true =>
        obtain ⟨t, ht⟩ := (firstMatches_iff _ _).mp hb
        exact absurd ⟨[], t, rfl, ht⟩ (hnone 0)
    simp [find_sub_idx, hfm]
  | cons c rest ih =>
    intro hnone
    have hfm : firstMatches n (c :: rest) = false := by
      cases hb : firstMatches n (c :: rest) with
      | false => rfl
      | true =>
        obtain ⟨t, ht⟩ := (firstMatches_iff _ _).mp hb
        exact absurd ⟨[], t, rfl, ht⟩ (hnone 0)
    have hrest : ∀ j, ¬ occursAt n rest j := by
      rintro j ⟨pre, post, hlen, hre⟩
      exact hnone (j + 1) ⟨c :: pre, post, by simp [hlen], by simp [hre]⟩
    simp [find_sub_idx, hfm, ih hrest]

theorem find_sub_idx_some (n : List Char) : ∀ (h : List Char) (i : Nat),
    occursAt n h i → (∀ j, j < i → ¬ occursAt n h j) → find_sub_idx n h = some i := by
  intro h
  induction h with
  | nil =>
    intro i hocc _hmin
    obtain ⟨pre, post, hlen, hnil⟩ := hocc
    have hpre : pre = [] := by
      cases pre with
      | nil => rfl
      | cons x xs => simp at hnil
    subst hpre
    have hn : n = [] := by
      cases n with
      | nil => rfl
      | cons x xs => simp at hnil
    subst hn
    simp at hlen
    subst hlen
    simp [find_sub_idx, firstMatches]
  | cons c rest ih =>
    intro i hocc hmin
    cases i with
    | zero =>
      obtain ⟨pre, post, hlen, heq⟩ := hocc
      have hpre : pre = [] := List.length_eq_zero.mp hlen
      subst hpre
      have hfm : firstMatches n (c :: rest) = true :=
        (firstMatches_iff _ _).mpr ⟨post, heq⟩
      simp [find_sub_idx, hfm]
    | succ i0 =>
      have h0 : ¬ occursAt n (c :: rest) 0 := hmin 0 (Nat.succ_pos _)
      have hfm : firstMatches n (c :: rest) = false := by
        cases hb : firstMatches n (c :: rest) with
        | false => rfl
        | true =>
          obtain ⟨t, ht⟩ := (firstMatches_iff _ _).mp hb
          exact absurd ⟨[], t, rfl, ht⟩ h0
      obtain ⟨pre, post, hlen, heq⟩ := hocc
      cases pre with
      | nil => simp at hlen
      | cons c2 pre2 =>
        rw [List.cons_append] at heq
        injection heq with hch hrest
        have hlen2 : pre2.length = i0 := by
          simp at hlen
          omega
        have hocc2 : occursAt n rest i0 := ⟨pre2, post, hlen2, hrest⟩
        have hmin2 : ∀ j, j < i0 → ¬ occursAt n rest j := by
          rintro j hj ⟨p2, q2, hl2, he2⟩
          exact hmin (j + 1) (by omega) ⟨c :: p2, q2, by simp [hl2], by simp [he2]⟩
        simp [find_sub_idx, hfm, ih i0 hocc2 hmin2]

theorem containsSub_iff (n h : List Char) :
    containsSub n h = true ↔ ∃ pre post, h = pre ++ n ++ post := by
  induction h with
  | nil =>
    simp only [containsSub, firstMatches_iff]
    constructor
    · rintro ⟨t, ht⟩
      exact ⟨[], t, ht⟩
    · rintro ⟨pre, post, hp⟩
      cases pre with
      | cons x xs => simp at hp
      | nil =>
        simp only [List.nil_append] at hp
        exact ⟨post, hp⟩
  | cons c rest ih =>
    simp only [containsSub, Bool.or_eq_true, firstMatches_iff, ih]
    constructor
    · rintro (⟨t, ht⟩ | ⟨pre, post, hp⟩)
      · exact ⟨[], t, ht⟩
      · exact ⟨c :: pre, post, by simp [hp]⟩
    · rintro ⟨pre, post, hp⟩
      cases pre with
      | nil =>
        exact Or.inl ⟨post, by simpa using hp⟩
      | cons c2 pre2 =>
        rw [List.cons_append] at hp
        injection hp with hch hrest
        exact Or.inr ⟨pre2, post, hrest⟩

/-- Claim C4 (amended): if the body contains no `"# Description"` marker,
`get_current_pr_description` returns the whole body; if the marker first
occurs at index `s` and no hash character occurs strictly after `s`, it returns the
whole body unchanged; if the next hash character strictly after `s` is at index `e`,
it returns the slice of the body from `s` up to but not including `e`. -/
theorem get_current_pr_description_amended (body : List Char) :
    ((∀ i, ¬ occursAt description_marker body i) →
        get_current_pr_description body = body) ∧
    (∀ s, occursAt description_marker body s →
      (∀ j, j < s → ¬ occursAt description_marker body j) →
      ((∀ e, s < e → ¬ occursAt hash_char body e) →
          get_current_pr_description body = body) ∧
      (∀ e, s < e → occursAt hash_char body e →
        (∀ j, s < j → j < e → ¬ occursAt hash_char body j) →
          get_current_pr_description body = (body.drop s).take (e - s))) := by
  have hhne : hash_char ≠ [] := by simp [hash_char]
  constructor
  · intro hno
    have h0 : find_sub_idx description_marker body = none := find_sub_idx_none _ _ hno
    simp [get_current_pr_description, find_from, h0]
  · intro s hocc hmin
    have hs : find_sub_idx description_marker body = some s :=
      find_sub_idx_some _ _ _ hocc hmin
    constructor
    · intro hnoe
      have hdropnone : find_sub_idx hash_char (body.drop (s + 1)) = none := by
        apply find_sub_idx_none
        intro k hk
        rw [occursAt_drop _ _ _ _ hhne] at hk
        exact hnoe (s + 1 + k) (by omega) hk
      simp [get_current_pr_description, find_from, hs, hdropnone]
    · intro e hse hocce hmine
      have hkocc : occursAt hash_char (body.drop (s + 1)) (e - (s + 1)) := by
        rw [occursAt_drop _ _ _ _ hhne]
        have he : s + 1 + (e - (s + 1)) = e := by omega
        rw [he]
        exact hocce
      have hkmin : ∀ j, j < e - (s + 1) → ¬ occursAt hash_char (body.drop (s + 1)) j := by
        intro j hj hcon
        rw [occursAt_drop _ _ _ _ hhne] at hcon
        exact hmine (s + 1 + j) (by omega) (by omega) hcon
      have hdropsome : find_sub_idx hash_char (body.drop (s + 1)) = some (e - (s + 1)) :=
        find_sub_idx_some _ _ _ hkocc hkmin
      have he2 : s + 1 + (e - (s + 1)) = e := by omega
      simp [get_current_pr_description, find_from, hs, hdropsome, he2]

/-- Claim C4 as frozen is false: in `bodyNoClosing` the marker occurs (at
index 1, its only occurrence) and no hash character occurs strictly after it, yet the
function returns the whole body, not the tail of the body starting at the
marker. -/
theorem get_current_pr_description_counterexample :
    occursAt description_marker bodyNoClosing 1 ∧
    (∀ e, 1 < e → ¬ occursAt hash_char bodyNoClosing e) ∧
    get_current_pr_description bodyNoClosing = bodyNoClosing ∧
    get_current_pr_description bodyNoClosing ≠ bodyNoClosing.drop 1 := by
  refine ⟨?_, ?_, by decide, by decide⟩
  · rw [occursAt_iff]
    decide
  · intro e he hocc
    have hlb : bodyNoClosing.length = 16 := by decide
    have hhb : hash_char.length = 1 := by decide
    have hb := occursAt_add_length_le _ _ _ hocc
    rw [hlb, hhb] at hb
    rw [occursAt_iff] at hocc
    have hall : ∀ e, e < 16 → 1 < e →
        ¬ (e ≤ bodyNoClosing.length ∧
            firstMatches hash_char (bodyNoClosing.drop e) = true) := by decide
    exact hall e (by omega) he hocc

/-- Witness for the amended C4 on the worked example from the specification:
the marker is first at index 6, the next hash strictly after it is at index
30, and the extracted section is `"# Description body text "`. -/
theorem get_current_pr_description_amended_witness :
    get_current_pr_description bodyWorked = (bodyWorked.drop 6).take (30 - 6) ∧
    (bodyWorked.drop 6).take (30 - 6) = "# Description body text ".data := by
  refine ⟨((get_current_pr_description_amended bodyWorked).2 6 ?_ ?_).2 30 ?_ ?_ ?_,
    by decide⟩
  · rw [occursAt_iff]
    decide
  · intro j hj hocc
    rw [occursAt_iff] at hocc
    exact (by decide : ∀ j, j < 6 →
      ¬ (j ≤ bodyWorked.length ∧
          firstMatches description_marker (bodyWorked.drop j) = true)) j hj hocc
  · omega
  · rw [occursAt_iff]
    decide
  · intro j h6j hj30 hocc
    rw [occursAt_iff] at hocc
    exact (by decide : ∀ j, j < 30 → 6 < j →
      ¬ (j ≤ bodyWorked.length ∧
          firstMatches hash_char (bodyWorked.drop j) = true)) j hj30 h6j hocc

/-- Claim C5: pagination of `get_pull_request_files`.  With two full pages of
`files_per_page = 30` entries followed by an empty page, exactly 60 file
changes are collected, in host order, and only 3 page requests are issued;
with ten full pages, exactly 300 are collected and only 10 requests are
issued (the loop truncates at the hard cap instead of failing). -/
theorem get_pull_request_files_pagination :
    (∀ (pages : Nat → Fetch (List FileChange)) (c1 c2 : List FileChange),
      pages 1 = Fetch.ok c1 → pages 2 = Fetch.ok c2 → pages 3 = Fetch.ok [] →
      c1.length = files_per_page → c2.length = files_per_page →
      get_pull_request_files pages = (FilesResult.ok (c1 ++ c2), 3) ∧
        (c1 ++ c2).length = 60) ∧
    (∀ (pages : Nat → Fetch (List FileChange)) (cs : Nat → List FileChange),
      (∀ i, 1 ≤ i → i ≤ 10 → pages i = Fetch.ok (cs i) ∧ (cs i).length = files_per_page) →
      ∃ files, get_pull_request_files pages = (FilesResult.ok files, 10) ∧
        files = ((List.range' 1 10).map cs).flatten ∧ files.length = 300) := by
  constructor
  · intro pages c1 c2 h1 h2 h3 l1 l2
    have hr : List.range' 1 10 = [1, 2, 3, 4, 5, 6, 7, 8, 9, 10] := by decide
    rw [files_per_page] at l1 l2
    constructor
    · simp [get_pull_request_files, hr, files_pages_loop, h1, h2, h3, l1, l2]
    · simp [List.length_append, l1, l2]
  · intro pages cs hcs
    have hr : List.range' 1 10 = [1, 2, 3, 4, 5, 6, 7, 8, 9, 10] := by decide
    have h1 := hcs 1 (by omega) (by omega)
    have h2 := hcs 2 (by omega) (by omega)
    have h3 := hcs 3 (by omega) (by omega)
    have h4 := hcs 4 (by omega) (by omega)
    have h5 := hcs 5 (by omega) (by omega)
    have h6 := hcs 6 (by omega) (by omega)
    have h7 := hcs 7 (by omega) (by omega)
    have h8 := hcs 8 (by omega) (by omega)
    have h9 := hcs 9 (by omega) (by omega)
    have h10 := hcs 10 (by omega) (by omega)
    rw [files_per_page] at h1 h2 h3 h4 h5 h6 h7 h8 h9 h10
    refine ⟨((List.range' 1 10).map cs).flatten, ?_, rfl, ?_⟩
    · simp [get_pull_request_files, hr, files_pages_loop,
        h1.1, h2.1, h3.1, h4.1, h5.1, h6.1, h7.1, h8.1, h9.1, h10.1,
        h1.2, h2.2, h3.2, h4.2, h5.2, h6.2, h7.2, h8.2, h9.2, h10.2]
    · simp [hr, List.length_append,
        h1.2, h2.2, h3.2, h4.2, h5.2, h6.2, h7.2, h8.2, h9.2, h10.2]

/-- Witness for C5: a concrete host with two full pages then empty pages, and
a concrete host with every page full. -/
theorem get_pull_request_files_pagination_witness :
    (get_pull_request_files pagesTwoFull = (FilesResult.ok (fullChunk ++ fullChunk), 3) ∧
      (fullChunk ++ fullChunk).length = 60) ∧
    (∃ files, get_pull_request_files pagesAllFull = (FilesResult.ok files, 10) ∧
      files = ((List.range' 1 10).map (fun _ => fullChunk)).flatten ∧ files.length = 300) := by
  constructor
  · exact get_pull_request_files_pagination.1 pagesTwoFull fullChunk fullChunk
      rfl rfl rfl (by decide) (by decide)
  · exact get_pull_request_files_pagination.2 pagesAllFull (fun _ => fullChunk)
      (fun i _ _ => ⟨rfl, rfl⟩)

/-- Claim C6: `trim_prompt` returns a head slice of its input of length
`min L 8192` (8192 = 2048 allowed tokens times 4 characters per token); the
kept characters are an unreordered initial segment of the input. -/
theorem trim_prompt_spec (prompt : List Char) :
    (trim_prompt prompt).length = min prompt.length (2048 * 4) ∧
    ∃ rest, prompt = trim_prompt prompt ++ rest ∧ 2048 * 4 = 8192 := by
  unfold trim_prompt
  by_cases h : prompt.length > 2048 * 4
  · simp only [h, if_pos]
    refine ⟨?_, prompt.drop (2048 * 4), ?_, by norm_num⟩
    · simp [List.length_take]
      omega
    · rw [List.take_append_drop]
  · simp only [h, if_neg, not_false_iff]
    refine ⟨by omega, [], by simp, by norm_num⟩

/-- Claim C7: `construct_prompt` is the fixed header followed by exactly one
per-file block (Changes in file FILENAME, colon, newline, PATCH, newline) per file change that
carries a patch, in host order; file changes without a patch contribute
nothing. -/
theorem construct_prompt_blocks
    (title current_description commit_messages : List Char)
    (files : List FileChange) :
    construct_prompt title current_description commit_messages files =
      prompt_header title current_description commit_messages ++
        (files.filterMap (fun f =>
          f.patch.map (fun patch =>
            "Changes in file ".data ++ f.filename ++ ": \n".data
              ++ patch ++ "\n".data))).flatten := by
  unfold construct_prompt
  congr 1
  induction files with
  | nil => simp [file_changes_text]
  | cons f rest ih =>
    cases hp : f.patch with
    | none => simp [file_changes_text, hp, ih]
    | some patch => simp [file_changes_text, hp, ih]

/-- Claim C8: the comment scan returns `true` exactly when some fetched
comment body contains the sentinel title as a substring, and in particular
returns `false` on an empty comment list. -/
theorem already_autogenerated_iff (sentinelTitle : List Char) (comments : List Comment) :
    (check_if_description_has_already_been_autogenerated sentinelTitle comments = true ↔
      ∃ c ∈ comments, ∃ pre post, c.body = pre ++ sentinelTitle ++ post) ∧
    check_if_description_has_already_been_autogenerated sentinelTitle [] = false := by
  refine ⟨?_, rfl⟩
  induction comments with
  | nil => simp [check_if_description_has_already_been_autogenerated]
  | cons c rest ih =>
    by_cases hc : containsSub sentinelTitle c.body = true
    · simp only [check_if_description_has_already_been_autogenerated, hc, if_pos]
      obtain ⟨pre, post, hp⟩ := (containsSub_iff _ _).mp hc
      exact iff_of_true (by simp) ⟨c, List.mem_cons_self c rest, pre, post, hp⟩
    · have hcf : containsSub sentinelTitle c.body = false := by
        cases hb : containsSub sentinelTitle c.body with
        | false => rfl
        | true => exact absurd hb hc
      simp only [check_if_description_has_already_been_autogenerated, hcf,
        Bool.false_eq_true, if_false, ih, List.mem_cons]
      constructor
      · rintro ⟨c2, hm, pre, post, hp⟩
        exact ⟨c2, Or.inr hm, pre, post, hp⟩
      · rintro ⟨c2, hm | hm, pre, post, hp⟩
        · exact absurd ((containsSub_iff _ _).mpr ⟨pre, post, hm ▸ hp⟩) hc
        · exact ⟨c2, hm, pre, post, hp⟩

/-- Claim C9: in any run that reaches publication (pull request fetched, body
present, files fetched, generation succeeded with text `g`), the comment body
posted is the sentinel title, then exactly two newline characters, then `g`;
and `add_title_to_description` produces exactly that string. -/
theorem published_body_format
    (w : World) (allowed_users : List (List Char)) (pr : PullRequestData)
    (b g : List Char)
    (hpr : w.prResp = Fetch.ok pr) (hb : pr.body = some b)
    (hfiles : ∃ files, (get_pull_request_files w.filePages).1 = FilesResult.ok files)
    (hgen : ∀ p, w.genResp p = Fetch.ok g) :
    (main_run w allowed_users).postedBody =
      some (autogenerated_title ++ "\n\n".data ++ g) ∧
    add_title_to_description autogenerated_title g =
      autogenerated_title ++ "\n\n".data ++ g := by
  obtain ⟨files, hf⟩ := hfiles
  refine ⟨?_, rfl⟩
  have hdesc : get_current_pr_description_of_pr pr =
      Except.ok (get_current_pr_description b) := by
    unfold get_current_pr_description_of_pr
    rw [hb]
  simp only [main_run, hpr, hdesc, hf, hgen, add_title_to_description]

/-- Witness for C9 at a fully successful concrete run. -/
theorem published_body_format_witness :
    (main_run worldAllOk []).postedBody =
      some (autogenerated_title ++ "\n\n".data ++ "generated text".data) := by
  exact (published_body_format worldAllOk [] prOk "".data "generated text".data
    rfl rfl ⟨[], rfl⟩ (fun p => rfl)).1

/-- Claim C10: the body-field access requires the pull-request body to be a
string.  When the JSON body is `null` the operation fails (Python raises)
instead of returning a string; when the body is a string the error branch is
unreachable and the extracted description is always returned. -/
theorem body_access_requires_string :
    (∀ pr : PullRequestData, pr.body = none →
      ∃ e, get_current_pr_description_of_pr pr = Except.error e) ∧
    (∀ (pr : PullRequestData) (b : List Char), pr.body = some b →
      get_current_pr_description_of_pr pr =
        Except.ok (get_current_pr_description b)) := by
  constructor
  · intro pr hnone
    refine ⟨"AttributeError: NoneType has no attribute find".data, ?_⟩
    unfold get_current_pr_description_of_pr
    rw [hnone]
  · intro pr b hsome
    unfold get_current_pr_description_of_pr
    rw [hsome]

/-- Witness for C10: a pull request with a null body fails, one with a string
body succeeds. -/
theorem body_access_requires_string_witness :
    (∃ e, get_current_pr_description_of_pr ⟨"t".data, none, "bob".data⟩ =
      Except.error e) ∧
    get_current_pr_description_of_pr ⟨"t".data, some "b".data, "bob".data⟩ =
      Except.ok (get_current_pr_description "b".data) := by
  exact ⟨body_access_requires_string.1 ⟨"t".data, none, "bob".data⟩ rfl,
    body_access_requires_string.2 ⟨"t".data, some "b".data, "bob".data⟩ "b".data rfl⟩

/-- Claim C1 fails on the code: in a run whose fetched comments already
contain the sentinel title (the scan itself returns `true`), `main` discards
the scan result, so the run still performs one generation call and one
comment POST, and exits 0. -/
theorem sentinel_present_still_generates :
    check_if_description_has_already_been_autogenerated autogenerated_title
      [sentinelComment] = true ∧
    worldWithSentinel.commentsResp = Fetch.ok [sentinelComment] ∧
    (main_run worldWithSentinel []).genCalls = 1 ∧
    (main_run worldWithSentinel []).publishCalls = 1 ∧
    (main_run worldWithSentinel []).outcome = RunOutcome.exited 0 := by
  refine ⟨by decide, rfl, ?_, ?_, ?_⟩ <;> rfl

/-- Claim C2 fails on the code: a failed comment POST (status 500) and a
failed commits fetch (status 404) both leave the run exiting 0, because
`main` discards the `1` those functions return to signal failure. -/
theorem required_step_failures_still_exit_zero :
    worldPostFails.postStatus = 500 ∧
    (main_run worldPostFails []).outcome = RunOutcome.exited 0 ∧
    (main_run worldPostFails []).publishCalls = 1 ∧
    worldCommitsFail.commitsResp = Fetch.fail 404 ∧
    (main_run worldCommitsFail []).outcome = RunOutcome.exited 0 ∧
    (main_run worldCommitsFail []).publishCalls = 1 := by
  refine ⟨rfl, ?_, ?_, rfl, ?_, ?_⟩ <;> rfl

/-- Claim C3 fails on the code: with a configured allowlist not containing
the author, the author check flags the author (returns `0`), but `main`
discards that value, so the run still performs one generation call, one
comment POST, and exits 0. -/
theorem disallowed_author_still_generates :
    allowedOnlyAlice ≠ [] ∧
    prOk.authorLogin ∉ allowedOnlyAlice ∧
    check_pull_request_author_is_allowed_to_trigger_action prOk allowedOnlyAlice =
      some 0 ∧
    (main_run worldAllOk allowedOnlyAlice).genCalls = 1 ∧
    (main_run worldAllOk allowedOnlyAlice).publishCalls = 1 ∧
    (main_run worldAllOk allowedOnlyAlice).outcome = RunOutcome.exited 0 := by
  refine ⟨by decide, by decide, by decide, ?_, ?_, ?_⟩ <;> rfl
